import Mathlib

/-!
Verification development for the HyperSave media-transfer pipeline.

The definitions below are a shallow embedding of the Python sources:

* `hypersave/managers/download_manager.py` (single/media-group downloads,
  size policy, retry policy, progress callback)
* `hypersave/managers/upload_manager.py` (upload dispatch, media-group
  batching, cleanup, progress callback)
* `hypersave/utils/media_processor.py` (grid layout selection)
* `hypersave/utils/message_utils.py` (entity formatting)

Side effects (network sends, real filesystem, ffmpeg) are represented by
explicit parameters: the filesystem is a list of paths, fallible external
calls are `Except`/`Bool` outcome parameters, and each embedded function
returns the data the corresponding Python function computes.
-/

namespace HyperSave

/-- Model of a `pathlib.Path` as used by the managers: every path the
pipeline builds is a directory-less `stem + suffix` pair, and
`Path.with_suffix` replaces the suffix component. -/
structure MPath where
  stem : String
  ext : String
deriving DecidableEq, Repr

/-- Embeds `p.with_suffix(s)`: keep the stem, replace the suffix. -/
def MPath.withExt (p : MPath) (s : String) : MPath :=
  ⟨p.stem, s⟩

/-- Embeds `output_path.with_name(output_path.stem + "_retry" + output_path.suffix)`
from `download_manager._download_single_media`. -/
def MPath.retryName (p : MPath) : MPath :=
  ⟨p.stem ++ "_retry", p.ext⟩

/-! ## Grid layout selection (`media_processor.process_video_thumb`) -/

/-- Embeds the duration-based grid selection in `process_video_thumb`:
`duration < 300 → 12 frames, (4,3)`; `< 600 → 16, (4,4)`;
`< 1800 → 25, (5,5)`; otherwise `36, (6,6)`.  The first component is the
frame count, the second is `(columns, rows)` as passed to
`create_thumb_grid`. -/
def gridLayout (duration : Nat) : Nat × (Nat × Nat) :=
  if duration < 300 then (12, (4, 3))
  else if duration < 600 then (16, (4, 4))
  else if duration < 1800 then (25, (5, 5))
  else (36, (6, 6))

/-! ## Media-group batching (`upload_manager._upload_media_group`) -/

/-- Fuel-indexed helper for `batches10` (structural recursion on the
fuel, which starts at the list length and dominates it throughout). -/
def batches10Go {α : Type} : Nat → List α → List (List α)
  | 0, _ => []
  | _ + 1, [] => []
  | fuel + 1, a :: l => ((a :: l).take 10) :: batches10Go fuel ((a :: l).drop 10)

/-- Embeds the batching loop `for i in range(0, len(media_list), 10):
batch = media_list[i:i+10]`: split the prepared media list into
consecutive chunks of at most 10 items. -/
def batches10 {α : Type} (l : List α) : List (List α) :=
  batches10Go l.length l

theorem batches10Go_nil {α : Type} (n : Nat) :
    batches10Go n ([] : List α) = [] := by
  cases n <;> rfl

theorem batches10Go_of_le {α : Type} :
    ∀ (n m : Nat) (l : List α), l.length ≤ n → l.length ≤ m →
      batches10Go n l = batches10Go m l := by
  intro n
  induction n with
  | zero =>
    intro m l h1 _
    have : l = [] := List.eq_nil_of_length_eq_zero (Nat.le_zero.mp h1)
    subst this
    rw [batches10Go_nil, batches10Go_nil]
  | succ n ih =>
    intro m l h1 h2
    cases l with
    | nil => rw [batches10Go_nil, batches10Go_nil]
    | cons a l =>
      cases m with
      | zero =>
        simp only [List.length_cons] at h2
        omega
      | succ m =>
        show _ :: batches10Go n ((a :: l).drop 10) =
          _ :: batches10Go m ((a :: l).drop 10)
        congr 1
        apply ih
        · simp only [List.length_drop, List.length_cons] at *
          omega
        · simp only [List.length_drop, List.length_cons] at *
          omega

/-- Embeds `total_batches = (len(media_list) + 9) // 10` from
`_upload_media_group`. -/
def totalBatches {α : Type} (l : List α) : Nat :=
  (l.length + 9) / 10

/-- Embeds the per-batch numbering `batch_num = i // 10 + 1`: the results
of the send loop, as `(batch_num, batch)` pairs in the order sent. -/
def numberedBatches {α : Type} (l : List α) : List (Nat × List α) :=
  (batches10 l).enum.map (fun kb => (kb.1 + 1, kb.2))

theorem batches10_nil {α : Type} : batches10 ([] : List α) = [] := rfl

theorem batches10_cons {α : Type} (a : α) (l : List α) :
    batches10 (a :: l) = ((a :: l).take 10) :: batches10 ((a :: l).drop 10) := by
  show _ :: batches10Go l.length ((a :: l).drop 10) = _
  congr 1
  apply batches10Go_of_le
  · simp only [List.length_drop, List.length_cons]
    omega
  · exact Nat.le_refl _

theorem batches10_flatten {α : Type} (l : List α) : (batches10 l).flatten = l := by
  match l with
  | [] => simp [batches10_nil]
  | a :: l =>
    rw [batches10_cons]
    have ih := batches10_flatten ((a :: l).drop 10)
    simp only [List.flatten_cons, ih]
    exact List.take_append_drop 10 (a :: l)
termination_by l.length
decreasing_by
  simp only [List.length_drop, List.length_cons]
  omega

theorem batches10_length {α : Type} (l : List α) :
    (batches10 l).length = (l.length + 9) / 10 := by
  match l with
  | [] => simp [batches10_nil]
  | a :: l =>
    rw [batches10_cons]
    have ih := batches10_length ((a :: l).drop 10)
    simp only [List.length_cons, ih, List.length_drop]
    omega
termination_by l.length
decreasing_by
  simp only [List.length_drop, List.length_cons]
  omega

theorem batches10_mem_length_le {α : Type} (l : List α) :
    ∀ b ∈ batches10 l, b.length ≤ 10 := by
  match l with
  | [] =>
    intro b hb
    simp [batches10_nil] at hb
  | a :: l =>
    intro b hb
    rw [batches10_cons] at hb
    rcases List.mem_cons.mp hb with hb | hb
    · subst hb
      simp only [List.length_take]
      omega
    · exact batches10_mem_length_le ((a :: l).drop 10) b hb
termination_by l.length
decreasing_by
  simp only [List.length_drop, List.length_cons]
  omega

/-! ## Download manager (`download_manager.py`) -/

/-- Embeds `self.MAX_FILE_SIZE = 2 * 1024 * 1024 * 1024  # 2GB limit`. -/
def MAX_FILE_SIZE : Nat := 2 * 1024 * 1024 * 1024

/-- Outcome of one `message.download(...)` call by the messaging client:
either a saved file, a `FileNotFoundError` (the transient missing-path
race handled specially by the code), or any other exception. -/
inductive DownloadErr
  | fileNotFound (msg : String)
  | other (msg : String)
deriving DecidableEq, Repr

/-- Result of the download/retry block: which paths were passed to
`message.download` (in order), and the final result. -/
structure SingleAttemptLog where
  tried : List MPath
  result : Except DownloadErr MPath
deriving Repr

/-- Embeds the inner `try/except FileNotFoundError` block of
`_download_single_media` (download to `output_path`; on
`FileNotFoundError` retry once with the `_retry` sibling name; any other
error, or a failing retry, propagates). The `attempt` parameter is the
messaging client's `download`, mapping the requested path to an outcome. -/
def downloadWithRetry (outputPath : MPath)
    (attempt : MPath → Except DownloadErr MPath) : SingleAttemptLog :=
  match attempt outputPath with
  | .ok p => ⟨[outputPath], .ok p⟩
  | .error (.fileNotFound _) =>
    match attempt outputPath.retryName with
    | .ok p => ⟨[outputPath, outputPath.retryName], .ok p⟩
    | .error e => ⟨[outputPath, outputPath.retryName], .error e⟩
  | .error e => ⟨[outputPath], .error e⟩

/-- Terminal bookkeeping of `process_download_task` for a single-media
task: which download calls were made, which files were produced, whether
the task was appended to `completed_downloads`, and whether the
`except` branch (the Failed terminal state) ran. -/
structure SingleDownloadOutcome where
  tried : List MPath
  outputFiles : List MPath
  markedCompleted : Bool
  failedWithError : Bool
deriving Repr

/-- Embeds `_download_single_media` (size check then download/retry)
composed with the terminal bookkeeping of `process_download_task`:
an oversized declared size returns `None` before any download, after
which the caller still marks the task completed; a download error
propagates to the caller's `except` branch, which does not mark it
completed. -/
def processSingleDownloadTask (declaredSize : Nat) (outputPath : MPath)
    (attempt : MPath → Except DownloadErr MPath) : SingleDownloadOutcome :=
  if declaredSize > MAX_FILE_SIZE then
    { tried := [], outputFiles := [], markedCompleted := true, failedWithError := false }
  else
    match (downloadWithRetry outputPath attempt).result with
    | .ok p =>
      { tried := (downloadWithRetry outputPath attempt).tried, outputFiles := [p],
        markedCompleted := true, failedWithError := false }
    | .error _ =>
      { tried := (downloadWithRetry outputPath attempt).tried, outputFiles := [],
        markedCompleted := false, failedWithError := true }

/-- One sibling message of a media group: whether `msg.media` is set, its
caption (`msg.caption or ""`), and the outcome of `msg.download(...)`. -/
structure GroupMessage where
  hasMedia : Bool
  caption : String
  dlResult : Except String MPath

/-- Embeds the download loop of `_download_media_group`: siblings are
processed in order; a message without media is skipped (`continue`);
a failing `msg.download` raises, aborting the remaining siblings; on
success the function returns the output paths and captions in source
order. -/
def downloadMediaGroup : List GroupMessage → Except String (List MPath × List String)
  | [] => .ok ([], [])
  | m :: ms =>
    if m.hasMedia then
      match m.dlResult with
      | .error e => .error e
      | .ok p =>
        match downloadMediaGroup ms with
        | .error e => .error e
        | .ok (ps, cs) => .ok (p :: ps, m.caption :: cs)
    else downloadMediaGroup ms

/-- Terminal bookkeeping of `process_download_task` for a media-group
task: the batch handed to `upload_manager.enqueue_media_group` (one call
with the whole file list), plus the terminal flags. -/
structure GroupTaskOutcome where
  forwardedBatch : List MPath
  markedCompleted : Bool
  failedWithError : Bool

/-- Embeds `process_download_task` for a media group: an exception from
`_download_media_group` reaches the `except` branch (Failed, nothing
forwarded); otherwise the task is marked completed and the downloaded
files are forwarded to the upload stage as one batch. -/
def processGroupDownloadTask (msgs : List GroupMessage) : GroupTaskOutcome :=
  match downloadMediaGroup msgs with
  | .error _ => ⟨[], false, true⟩
  | .ok (ps, _) => ⟨ps, true, false⟩

/-! ## Stage admission control (semaphores in both managers)

`process_download_task` and `process_upload_task` run their whole body
inside `async with self.download_semaphore` / `self.upload_semaphore`,
created with `asyncio.Semaphore(max_concurrent_downloads)` (default 5)
and `asyncio.Semaphore(max_concurrent_uploads)` (default 3).  The
transition system below models the semaphore discipline: a task body
starts executing only by acquiring a slot (possible only when one is
available) and frees its slot when it finishes. -/

/-- Embeds `DownloadManager.__init__(self, max_concurrent_downloads: int = 5)`. -/
def maxConcurrentDownloads : Nat := 5

/-- Embeds `UploadManager.__init__(self, max_concurrent_uploads: int = 3)`. -/
def maxConcurrentUploads : Nat := 3

/-- State of one stage: free semaphore slots and the identifiers of
task bodies currently executing inside the `async with` block. -/
structure StageState where
  available : Nat
  active : List String
deriving Repr, DecidableEq

/-- A scheduler step: a dequeued task body acquires a free slot and
becomes active, or an active task body finishes and releases its slot. -/
inductive StageStep : StageState → StageState → Prop
  | acquire (s : StageState) (tid : String) (h : 0 < s.available) :
      StageStep s ⟨s.available - 1, tid :: s.active⟩
  | release (s : StageState) (tid : String) (h : tid ∈ s.active) :
      StageStep s ⟨s.available + 1, s.active.erase tid⟩

/-- States reachable from the stage's start state (`limit` free slots,
nothing executing). -/
inductive StageReachable (limit : Nat) : StageState → Prop
  | init : StageReachable limit ⟨limit, []⟩
  | step {s t : StageState} :
      StageReachable limit s → StageStep s t → StageReachable limit t

theorem stageReachable_invariant {limit : Nat} {s : StageState}
    (h : StageReachable limit s) : s.available + s.active.length = limit := by
  induction h with
  | init => simp
  | step hr hs ih =>
    cases hs with
    | acquire tid h =>
      simp only [List.length_cons]
      omega
    | release tid h =>
      rename_i s
      have hlen := List.length_erase_of_mem h
      have hpos : 0 < s.active.length := List.length_pos.mpr (List.ne_nil_of_mem h)
      simp only [hlen]
      omega

/-! ## Progress callbacks (`_progress_callback` in both managers) -/

/-- The task's progress counters (`task.progress`, `task.total_size`). -/
structure ProgressState where
  progress : Nat
  totalSize : Nat
deriving Repr, DecidableEq

/-- Embeds the state update of `_progress_callback(current, total, task)`
(identical in both managers): `if total == 0: return`, otherwise
`task.progress = current; task.total_size = total`. -/
def progressCallback (st : ProgressState) (current total : Nat) : ProgressState :=
  if total = 0 then st
  else { progress := current, totalSize := total }

/-- Embeds `percentage = current * 100 / total` (true division in
Python, hence a rational). -/
def percentage (current total : Nat) : ℚ :=
  (current : ℚ) * 100 / (total : ℚ)

/-- The task states visible after 0, 1, 2, … calls of the callback with
a fixed total, starting from the freshly enqueued task
(`progress=0, total_size=0`). -/
def progressStates (total : Nat) (calls : List Nat) : List ProgressState :=
  calls.scanl (fun st c => progressCallback st c total) ⟨0, 0⟩

/-! ## Upload manager terminal behavior and cleanup (`upload_manager.py`) -/

/-- The fields of an `UploadTask` that the cleanup step reads. -/
structure UTask where
  isMediaGroup : Bool
  filePath : MPath
  mediaGroupFiles : List MPath

/-- The paths `_cleanup_files` tries to delete: for a media group every
group file plus its `.jpg` thumbnail and `.thumb.jpg` preview siblings,
for a single upload the primary file plus the same two siblings. -/
def ownedPaths (t : UTask) : List MPath :=
  if t.isMediaGroup then
    t.mediaGroupFiles.flatMap
      (fun f => [f, f.withExt ".jpg", f.withExt ".thumb.jpg"])
  else
    [t.filePath, t.filePath.withExt ".jpg", t.filePath.withExt ".thumb.jpg"]

/-- Embeds `_cleanup_files`: each owned path is removed from the
filesystem if present (removing an absent path is a no-op). -/
def cleanupFiles (fs : List MPath) (t : UTask) : List MPath :=
  fs.filter (fun p => decide (p ∉ ownedPaths t))

/-- Outcome of the task body (`_upload_media` / `_upload_media_group`):
either it returned normally or it raised. -/
inductive UploadOutcome
  | success
  | failure (msg : String)

/-- Terminal bookkeeping of `process_upload_task`: terminal flags and
the filesystem afterwards. -/
structure UploadTaskResult where
  markedCompleted : Bool
  failedWithError : Bool
  fs : List MPath

/-- Embeds the terminal structure of `process_upload_task`: on success
the task is marked completed and `_cleanup_files` runs; when the body
raises, the `except` branch only edits the status message — the
`finally` block removes the task from `active_uploads` but no cleanup
runs, so the filesystem is unchanged. -/
def processUploadTask (fs : List MPath) (t : UTask) (outcome : UploadOutcome) :
    UploadTaskResult :=
  match outcome with
  | .success => ⟨true, false, cleanupFiles fs t⟩
  | .failure _ => ⟨false, true, fs⟩

/-- Send plan of `_upload_media` for a video file: either one
`send_video` call, or a two-item `send_media_group` batch (video first,
preview photo second). The caption always travels with the video item. -/
inductive SendPlan
  | singleVideo (video : MPath) (caption : String) (thumb : Option MPath)
  | videoWithPreview (video : MPath) (caption : String) (thumb : Option MPath)
      (preview : MPath)
deriving Repr, DecidableEq

/-- Number of media items in the wire call(s) of a plan. -/
def SendPlan.itemCount : SendPlan → Nat
  | .singleVideo _ _ _ => 1
  | .videoWithPreview _ _ _ _ => 2

/-- Embeds the video branch of `_upload_media` (`duration <= 180` sends
one video with the representative-frame thumbnail when available;
otherwise `process_video_thumb` builds the timestamped grid preview and
video + preview go out as one two-item media group, falling back to a
single `send_video` when preview creation or the group send fails).
`thumbOk` abstracts the first `get_video_thumbnail` succeeding,
`thumbRetryOk` the re-creation attempt in the long-video branch,
`previewOk` a usable `process_video_thumb` result, and `groupSendOk`
the `send_media_group` call not raising. -/
def uploadVideoPlan (duration : Nat) (video : MPath) (caption : String)
    (thumbOk thumbRetryOk previewOk groupSendOk : Bool) : SendPlan :=
  let thumb : Option MPath := if thumbOk then some (video.withExt ".jpg") else none
  if duration ≤ 180 then
    .singleVideo video caption thumb
  else if previewOk then
    let preview := video.withExt ".thumb.jpg"
    let thumbAfterRecheck : Option MPath :=
      match thumb with
      | some t => some t
      | none => if thumbRetryOk then some (video.withExt ".jpg") else none
    if groupSendOk then .videoWithPreview video caption thumbAfterRecheck preview
    else .singleVideo video caption thumbAfterRecheck
  else
    .singleVideo video caption thumb

/-! ## Entity formatting (`message_utils.format_message_entities`) -/

/-- The annotation kinds: the nine the formatter knows, plus
`otherKind` for every remaining `MessageEntityType` member (mention,
url, email, …), which gets the default priority and no markup branch. -/
inductive EntityKind
  | bold | italic | underline | strikethrough | spoiler | code | pre
  | textLink | hashtag
  | otherKind (tag : Nat)
deriving DecidableEq, Repr

/-- One message entity: `offset`, `length`, kind, and (used only by
`TEXT_LINK`) the destination `url`. -/
structure MsgEntity where
  offset : Nat
  length : Nat
  kind : EntityKind
  url : String
deriving DecidableEq, Repr

/-- Embeds the `priority` dict (`BOLD: 1 … HASHTAG: 9`) together with
`default_priority = 100` for kinds outside the dict. -/
def kindPriority : EntityKind → Nat
  | .bold => 1
  | .italic => 2
  | .underline => 3
  | .strikethrough => 4
  | .spoiler => 5
  | .code => 6
  | .pre => 7
  | .textLink => 8
  | .hashtag => 9
  | .otherKind _ => 100

/-- Embeds the `if entity.type == …` markup chain applied to
`formatted_text` (one wrap per entity; `HASHTAG` and unknown kinds are
the identity). -/
def applyEntity (e : MsgEntity) (s : String) : String :=
  match e.kind with
  | .bold => "**" ++ s ++ "**"
  | .italic => "__" ++ s ++ "__"
  | .underline => "--" ++ s ++ "--"
  | .strikethrough => "~~" ++ s ++ "~~"
  | .spoiler => "||" ++ s ++ "||"
  | .code => "`" ++ s ++ "`"
  | .pre => "```" ++ s ++ "```"
  | .textLink => "[" ++ s ++ "](" ++ e.url ++ ")"
  | .hashtag => s
  | .otherKind _ => s

/-- The order produced by
`entities_at_pos.sort(key=lambda x: priority.get(x.type, 100), reverse=True)`:
`a` precedes `b` when `a`'s priority number is at least `b`'s.  Python's
sort is stable and so is `List.insertionSort` with this relation, so
ties keep input order in both. -/
def priorityGe (a b : MsgEntity) : Prop :=
  kindPriority b.kind ≤ kindPriority a.kind

instance : DecidableRel priorityGe := fun a b =>
  inferInstanceAs (Decidable (kindPriority b.kind ≤ kindPriority a.kind))

/-- The per-group sort (descending priority number, stable). -/
def sortGroupDesc (g : List MsgEntity) : List MsgEntity :=
  g.insertionSort priorityGe

/-- Embeds the `for entity in entities_at_pos: formatted_text = …` loop:
markup is applied left-to-right over the sorted group, so the last
(lowest priority number, highest priority) wrapper ends up outermost. -/
def applyGroup (g : List MsgEntity) (s : String) : String :=
  (sortGroupDesc g).foldl (fun t e => applyEntity e t) s

/-- The grouping key `(start, end) = (entity.offset, entity.offset + entity.length)`. -/
def entityKey (e : MsgEntity) : Nat × Nat :=
  (e.offset, e.offset + e.length)

/-- Lexicographic order on `(start, end)` keys, as used by
`sorted(entity_dict.items())`. -/
def keyLe (k1 k2 : Nat × Nat) : Prop :=
  k1.1 < k2.1 ∨ (k1.1 = k2.1 ∧ k1.2 ≤ k2.2)

instance : DecidableRel keyLe := fun k1 k2 =>
  inferInstanceAs (Decidable (k1.1 < k2.1 ∨ (k1.1 = k2.1 ∧ k1.2 ≤ k2.2)))

/-- The distinct `(start, end)` keys in ascending order: the embedding of
building `entity_dict` and walking `sorted(entity_dict.items())`. -/
def sortedKeys (es : List MsgEntity) : List (Nat × Nat) :=
  ((es.map entityKey).dedup).insertionSort keyLe

/-- The entities grouped under key `k`, in input order (the dict values). -/
def groupAt (es : List MsgEntity) (k : Nat × Nat) : List MsgEntity :=
  es.filter (fun e => decide (entityKey e = k))

/-- Embeds the Python slice `text[a:b]` (clamping, `b ≤ a` empty). -/
def strSlice (s : String) (a b : Nat) : String :=
  String.mk ((s.data.drop a).take (b - a))

/-- Embeds the Python slice `text[a:]`. -/
def strFrom (s : String) (a : Nat) : String :=
  String.mk (s.data.drop a)

/-- One iteration of the `for (start, end), entities_at_pos in sorted(…)`
loop: state is `(last_end, result-so-far)`; untouched text before the
group is emitted only when `start > last_end`. -/
def formatStep (text : String) (es : List MsgEntity) (st : Nat × String)
    (k : Nat × Nat) : Nat × String :=
  (k.2, st.2 ++ (if st.1 < k.1 then strSlice text st.1 k.1 else "") ++
    applyGroup (groupAt es k) (strSlice text k.1 k.2))

/-- Embeds `format_message_entities(message_text, entities)`. -/
def formatMessageEntities (text : String) (es : List MsgEntity) : String :=
  if text = "" ∨ es = [] then text
  else
    let fin := (sortedKeys es).foldl (formatStep text es) (0, "")
    fin.2 ++ (if fin.1 < text.length then strFrom text fin.1 else "")

/-! ## Claim theorems -/

/-- C5: grid thumbnail shape selection is a pure step function of the
duration alone: below 300 s it picks 12 frames in a 4×3 grid, in
[300, 600) it picks 16 frames in 4×4, in [600, 1800) it picks 25 frames
in 5×5, and from 1800 s on it picks 36 frames in 6×6. -/
theorem grid_layout_step_function (d : Nat) :
    (d < 300 → gridLayout d = (12, (4, 3))) ∧
    (300 ≤ d → d < 600 → gridLayout d = (16, (4, 4))) ∧
    (600 ≤ d → d < 1800 → gridLayout d = (25, (5, 5))) ∧
    (1800 ≤ d → gridLayout d = (36, (6, 6))) := by
  refine ⟨fun h => ?_, fun h1 h2 => ?_, fun h1 h2 => ?_, fun h => ?_⟩ <;>
    · unfold gridLayout
      split_ifs <;> first | rfl | omega

/-- Witness for C5 at the four durations named by the claim. -/
theorem grid_layout_step_function_witness :
    gridLayout 250 = (12, (4, 3)) ∧ gridLayout 400 = (16, (4, 4)) ∧
    gridLayout 1000 = (25, (5, 5)) ∧ gridLayout 3000 = (36, (6, 6)) :=
  ⟨(grid_layout_step_function 250).1 (by decide),
   (grid_layout_step_function 400).2.1 (by decide) (by decide),
   (grid_layout_step_function 1000).2.2.1 (by decide) (by decide),
   (grid_layout_step_function 3000).2.2.2 (by decide)⟩

/-- C7: a media-group upload of `n` prepared items goes out in
`⌈n/10⌉` wire calls, each carrying at most 10 items; the concatenation
of the sub-batches in send order is exactly the prepared list; and the
reported batch numbers are the consecutive indices `1, 2, …` out of the
reported total `⌈n/10⌉`. -/
theorem media_group_batching (α : Type) (items : List α) :
    (batches10 items).length = (items.length + 9) / 10 ∧
    (∀ b ∈ batches10 items, b.length ≤ 10) ∧
    (batches10 items).flatten = items ∧
    (numberedBatches items).map Prod.fst =
      (List.range (batches10 items).length).map (· + 1) ∧
    totalBatches items = (batches10 items).length := by
  refine ⟨batches10_length items, batches10_mem_length_le items,
    batches10_flatten items, ?_, (batches10_length items).symm⟩
  show ((batches10 items).enum.map (fun kb => (kb.1 + 1, kb.2))).map Prod.fst = _
  rw [List.map_map]
  have : (Prod.fst ∘ fun kb : Nat × List α => (kb.1 + 1, kb.2)) =
      ((· + 1) ∘ Prod.fst) := rfl
  rw [this, ← List.map_map, List.enum_map_fst]

/-- Witness for C7 on a concrete 23-item batch: three wire calls, the
last sub-batch has at most 10 items, and the concatenation is the input. -/
theorem media_group_batching_witness :
    (batches10 (List.range 23)).length = 3 ∧
    ([20, 21, 22] : List Nat).length ≤ 10 ∧
    (batches10 (List.range 23)).flatten = List.range 23 :=
  ⟨by rw [(media_group_batching Nat (List.range 23)).1]; decide,
   (media_group_batching Nat (List.range 23)).2.1 [20, 21, 22] (by decide),
   (media_group_batching Nat (List.range 23)).2.2.1⟩

/-- C2 counterexample: a single-media download task with a declared size
of 3 GiB is rejected by the size check, but the task never reaches a
Failed state — `process_download_task` marks it completed and appends it
to `completed_downloads`, contradicting the claim's Queued→Failed
transition and "not recorded as completed". -/
theorem oversize_download_marked_completed :
    (processSingleDownloadTask (3 * 1024 * 1024 * 1024) ⟨"123_45", ".mp4"⟩
        (fun p => Except.ok p)).markedCompleted = true ∧
    (processSingleDownloadTask (3 * 1024 * 1024 * 1024) ⟨"123_45", ".mp4"⟩
        (fun p => Except.ok p)).failedWithError = false := by
  constructor <;> rfl

/-- C2 (amended): a declared size above the 2 GiB limit makes
`_download_single_media` return before any download call, so zero bytes
are transferred and no output path is created; the task is then marked
completed (recorded in `completed_downloads`) rather than failed. -/
theorem oversize_download_rejected (declaredSize : Nat) (p : MPath)
    (attempt : MPath → Except DownloadErr MPath)
    (h : declaredSize > MAX_FILE_SIZE) :
    processSingleDownloadTask declaredSize p attempt =
      { tried := [], outputFiles := [],
        markedCompleted := true, failedWithError := false } := by
  unfold processSingleDownloadTask
  rw [if_pos h]

/-- Witness for the amended C2 at a declared size of 3 GiB. -/
theorem oversize_download_rejected_witness :
    processSingleDownloadTask (3 * 1024 * 1024 * 1024) ⟨"123_45", ".mp4"⟩
        (fun p => Except.ok p) =
      { tried := [], outputFiles := [],
        markedCompleted := true, failedWithError := false } :=
  oversize_download_rejected (3 * 1024 * 1024 * 1024) ⟨"123_45", ".mp4"⟩
    (fun p => Except.ok p) (by decide)

theorem downloadMediaGroup_all_ok (msgs : List GroupMessage)
    (h : ∀ m ∈ msgs, m.hasMedia = true → m.dlResult.isOk = true) :
    downloadMediaGroup msgs =
      Except.ok
        (msgs.filterMap
          (fun m => if m.hasMedia = true then m.dlResult.toOption else none),
         msgs.filterMap
          (fun m => if m.hasMedia = true then some m.caption else none)) := by
  induction msgs with
  | nil => rfl
  | cons m ms ih =>
    have hms : ∀ x ∈ ms, x.hasMedia = true → x.dlResult.isOk = true :=
      fun x hx => h x (List.mem_cons_of_mem _ hx)
    by_cases hmedia : m.hasMedia = true
    · cases hr : m.dlResult with
      | error e =>
        have := h m (List.mem_cons_self _ _) hmedia
        rw [hr] at this
        simp [Except.isOk, Except.toBool] at this
      | ok p =>
        simp only [downloadMediaGroup, hmedia, if_true, hr, ih hms,
          List.filterMap_cons, Except.toOption]
    · simp only [Bool.not_eq_true] at hmedia
      simp only [downloadMediaGroup, hmedia, Bool.false_eq_true, if_false,
        ih hms, List.filterMap_cons]

theorem downloadMediaGroup_err (msgs : List GroupMessage)
    (h : ∃ m ∈ msgs, m.hasMedia = true ∧ m.dlResult.isOk = false) :
    ∃ e, downloadMediaGroup msgs = Except.error e := by
  induction msgs with
  | nil => simp at h
  | cons m ms ih =>
    by_cases hmedia : m.hasMedia = true
    · cases hr : m.dlResult with
      | error e =>
        exact ⟨e, by simp [downloadMediaGroup, hmedia, hr]⟩
      | ok p =>
        obtain ⟨x, hx, hxm, hxe⟩ := h
        rcases List.mem_cons.mp hx with rfl | hx'
        · rw [hr] at hxe
          simp [Except.isOk, Except.toBool] at hxe
        · obtain ⟨e, he⟩ := ih ⟨x, hx', hxm, hxe⟩
          exact ⟨e, by simp [downloadMediaGroup, hmedia, hr, he]⟩
    · obtain ⟨x, hx, hxm, hxe⟩ := h
      rcases List.mem_cons.mp hx with rfl | hx'
      · exact absurd hxm hmedia
      · obtain ⟨e, he⟩ := ih ⟨x, hx', hxm, hxe⟩
        simp only [Bool.not_eq_true] at hmedia
        exact ⟨e, by simp [downloadMediaGroup, hmedia, he]⟩

/-- C3 counterexample: a two-sibling media group where the first sibling
downloads fine and the second raises — `_download_media_group` has no
per-item error handling, so the exception propagates and the whole task
fails with nothing forwarded, contrary to the claim that only the failed
item is excluded. (No `NoMediaDownloaded` error exists in the code.) -/
theorem group_sibling_failure_fails_whole_task :
    processGroupDownloadTask
        [⟨true, "c1", Except.ok ⟨"7_1", ".jpg"⟩⟩,
         ⟨true, "c2", Except.error "io error"⟩] =
      ⟨[], false, true⟩ := rfl

/-- C3 (amended): when every sibling that carries media downloads
successfully, the task completes and all downloaded items are forwarded
as one batch in original order (non-media siblings are skipped); when
any sibling's download fails, the exception aborts the loop and the
whole task fails with nothing forwarded. -/
theorem group_download_all_or_nothing (msgs : List GroupMessage) :
    ((∀ m ∈ msgs, m.hasMedia = true → m.dlResult.isOk = true) →
      processGroupDownloadTask msgs =
        ⟨msgs.filterMap
          (fun m => if m.hasMedia = true then m.dlResult.toOption else none),
         true, false⟩) ∧
    ((∃ m ∈ msgs, m.hasMedia = true ∧ m.dlResult.isOk = false) →
      processGroupDownloadTask msgs = ⟨[], false, true⟩) := by
  constructor
  · intro h
    unfold processGroupDownloadTask
    rw [downloadMediaGroup_all_ok msgs h]
  · intro h
    obtain ⟨e, he⟩ := downloadMediaGroup_err msgs h
    unfold processGroupDownloadTask
    rw [he]

/-- Witness for the amended C3: an all-successful three-sibling group
(the middle sibling has no media) forwards both files in order, and a
group with one failing sibling forwards nothing and fails. -/
theorem group_download_all_or_nothing_witness :
    processGroupDownloadTask
        [⟨true, "c1", Except.ok ⟨"7_1", ".jpg"⟩⟩,
         ⟨false, "t", Except.error "no media"⟩,
         ⟨true, "c3", Except.ok ⟨"7_3", ".mp4"⟩⟩] =
      ⟨[⟨"7_1", ".jpg"⟩, ⟨"7_3", ".mp4"⟩], true, false⟩ ∧
    processGroupDownloadTask
        [⟨true, "c1", Except.ok ⟨"7_1", ".jpg"⟩⟩,
         ⟨true, "c2", Except.error "io error"⟩] =
      ⟨[], false, true⟩ := by
  constructor
  · exact (group_download_all_or_nothing
      [⟨true, "c1", Except.ok ⟨"7_1", ".jpg"⟩⟩,
       ⟨false, "t", Except.error "no media"⟩,
       ⟨true, "c3", Except.ok ⟨"7_3", ".mp4"⟩⟩]).1 (by decide)
  · exact (group_download_all_or_nothing
      [⟨true, "c1", Except.ok ⟨"7_1", ".jpg"⟩⟩,
       ⟨true, "c2", Except.error "io error"⟩]).2
      ⟨⟨true, "c2", Except.error "io error"⟩,
       List.mem_cons_of_mem _ (List.mem_cons_self _ _), rfl, rfl⟩

/-- C10: a single-media download failing with `FileNotFoundError` is
retried exactly once under the `_retry`-suffixed sibling name (the
attempt log holds exactly the original path and that one retry path —
no third attempt); a successful retry yields its file, and a failing
retry propagates, leaving the task terminally failed and not recorded
as completed. -/
theorem download_retry_policy (p : MPath)
    (attempt : MPath → Except DownloadErr MPath) (m : String)
    (h1 : attempt p = Except.error (DownloadErr.fileNotFound m)) :
    (downloadWithRetry p attempt).tried = [p, p.retryName] ∧
    (∀ q, attempt p.retryName = Except.ok q →
      (downloadWithRetry p attempt).result = Except.ok q) ∧
    (∀ e, attempt p.retryName = Except.error e →
      (downloadWithRetry p attempt).result = Except.error e ∧
      ∀ declaredSize, declaredSize ≤ MAX_FILE_SIZE →
        (processSingleDownloadTask declaredSize p attempt).markedCompleted = false ∧
        (processSingleDownloadTask declaredSize p attempt).failedWithError = true) := by
  have hsize : ∀ declaredSize, declaredSize ≤ MAX_FILE_SIZE →
      ¬ declaredSize > MAX_FILE_SIZE := fun _ h => by omega
  refine ⟨?_, ?_, ?_⟩
  · unfold downloadWithRetry
    rw [h1]
    cases h2 : attempt p.retryName <;> rfl
  · intro q h2
    unfold downloadWithRetry
    rw [h1, h2]
  · intro e h2
    have hres : (downloadWithRetry p attempt).result = Except.error e := by
      unfold downloadWithRetry
      rw [h1, h2]
    refine ⟨hres, fun declaredSize hds => ?_⟩

    unfold processSingleDownloadTask
    rw [if_neg (hsize declaredSize hds), hres]
    exact ⟨rfl, rfl⟩

/-- Witness for C10: a concrete client whose first write hits the
missing-path race and whose retry fails on a full disk. -/
theorem download_retry_policy_witness :
    (downloadWithRetry ⟨"55_7", ".mp4"⟩
        (fun q => if q = ⟨"55_7", ".mp4"⟩
          then Except.error (DownloadErr.fileNotFound "tmp vanished")
          else Except.error (DownloadErr.other "disk full"))).tried =
      [⟨"55_7", ".mp4"⟩, ⟨"55_7_retry", ".mp4"⟩] ∧
    (processSingleDownloadTask 1024 ⟨"55_7", ".mp4"⟩
        (fun q => if q = ⟨"55_7", ".mp4"⟩
          then Except.error (DownloadErr.fileNotFound "tmp vanished")
          else Except.error (DownloadErr.other "disk full"))).failedWithError =
      true := by
  have h := download_retry_policy ⟨"55_7", ".mp4"⟩
    (fun q => if q = ⟨"55_7", ".mp4"⟩
      then Except.error (DownloadErr.fileNotFound "tmp vanished")
      else Except.error (DownloadErr.other "disk full"))
    "tmp vanished" rfl
  constructor
  · rw [h.1]
    decide
  · exact ((h.2.2 (DownloadErr.other "disk full") rfl).2 1024
      (by decide)).2

/-- C6 counterexample: at a probed duration of exactly 180 s the code's
`if duration <= 180` takes the short-video branch — one `send_video`
call with the single representative-frame thumbnail — not the
grid-preview batch the claim requires at that boundary. -/
theorem video_at_threshold_takes_single_path :
    uploadVideoPlan 180 ⟨"v", ".mp4"⟩ "cap" true true true true =
      SendPlan.singleVideo ⟨"v", ".mp4"⟩ "cap" (some ⟨"v", ".jpg"⟩) ∧
    (uploadVideoPlan 180 ⟨"v", ".mp4"⟩ "cap" true true true true).itemCount =
      1 := by
  constructor <;> rfl

/-- C6 (amended): videos with duration at most 180 s are sent alone with
the representative-frame thumbnail when available; strictly above 180 s
(and with a usable grid preview and a successful group send) the video
goes out as a two-item batch — video with the original caption first,
grid preview second. -/
theorem video_upload_plan_by_duration (duration : Nat) (v : MPath)
    (cap : String) (tOk tROk : Bool) :
    (duration ≤ 180 → ∀ pOk gOk : Bool,
      uploadVideoPlan duration v cap tOk tROk pOk gOk =
        SendPlan.singleVideo v cap
          (if tOk then some (v.withExt ".jpg") else none)) ∧
    (180 < duration →
      uploadVideoPlan duration v cap tOk tROk true true =
        SendPlan.videoWithPreview v cap
          (if tOk then some (v.withExt ".jpg")
           else if tROk then some (v.withExt ".jpg") else none)
          (v.withExt ".thumb.jpg") ∧
      (uploadVideoPlan duration v cap tOk tROk true true).itemCount = 2) := by
  constructor
  · intro h pOk gOk
    unfold uploadVideoPlan
    rw [if_pos h]
  · intro h
    have h' : ¬ duration ≤ 180 := by omega
    constructor
    · unfold uploadVideoPlan
      rw [if_neg h']
      cases tOk <;> cases tROk <;> rfl
    · unfold uploadVideoPlan SendPlan.itemCount
      rw [if_neg h']
      cases tOk <;> cases tROk <;> rfl

/-- Witness for the amended C6 at durations 100 s and 181 s. -/
theorem video_upload_plan_by_duration_witness :
    uploadVideoPlan 100 ⟨"v", ".mp4"⟩ "c" true false false false =
      SendPlan.singleVideo ⟨"v", ".mp4"⟩ "c" (some ⟨"v", ".jpg"⟩) ∧
    uploadVideoPlan 181 ⟨"v", ".mp4"⟩ "c" true false true true =
      SendPlan.videoWithPreview ⟨"v", ".mp4"⟩ "c" (some ⟨"v", ".jpg"⟩)
        ⟨"v", ".thumb.jpg"⟩ := by
  constructor
  · exact (video_upload_plan_by_duration 100 ⟨"v", ".mp4"⟩ "c" true false).1
      (by decide) false false
  · exact ((video_upload_plan_by_duration 181 ⟨"v", ".mp4"⟩ "c" true false).2
      (by decide)).1

/-- C1 counterexample: a single-file upload task whose body raises
reaches the Failed terminal state, but `_cleanup_files` is only called
on the success path — the primary file it owns is still on the
filesystem afterwards, contradicting cleanup totality. -/
theorem failed_upload_skips_cleanup :
    (⟨"9_9", ".mp4"⟩ : MPath) ∈ ownedPaths ⟨false, ⟨"9_9", ".mp4"⟩, []⟩ ∧
    (processUploadTask [⟨"9_9", ".mp4"⟩, ⟨"9_9", ".jpg"⟩]
        ⟨false, ⟨"9_9", ".mp4"⟩, []⟩
        (UploadOutcome.failure "Telegram API error")).failedWithError = true ∧
    (⟨"9_9", ".mp4"⟩ : MPath) ∈
      (processUploadTask [⟨"9_9", ".mp4"⟩, ⟨"9_9", ".jpg"⟩]
        ⟨false, ⟨"9_9", ".mp4"⟩, []⟩
        (UploadOutcome.failure "Telegram API error")).fs := by
  refine ⟨by decide, rfl, by decide⟩

/-- C1 (amended): cleanup runs only on the Completed path — after a
successful upload every owned path (primary file, `.jpg` thumbnail,
`.thumb.jpg` grid preview, for each file of the task) is absent from the
filesystem; when the task fails, no cleanup happens and the filesystem
is unchanged. -/
theorem upload_cleanup_on_success (fs : List MPath) (t : UTask) :
    (∀ p ∈ ownedPaths t, p ∉ (processUploadTask fs t UploadOutcome.success).fs) ∧
    (∀ m, (processUploadTask fs t (UploadOutcome.failure m)).fs = fs) := by
  constructor
  · intro p hp hmem
    have hf : p ∈ cleanupFiles fs t := hmem
    unfold cleanupFiles at hf
    rw [List.mem_filter] at hf
    have h2 := hf.2
    simp only [decide_eq_true_eq] at h2
    exact h2 hp
  · intro m
    rfl

/-- Witness for the amended C1 on a concrete task and filesystem. -/
theorem upload_cleanup_on_success_witness :
    (⟨"9_9", ".mp4"⟩ : MPath) ∉
      (processUploadTask [⟨"9_9", ".mp4"⟩, ⟨"9_9", ".jpg"⟩]
        ⟨false, ⟨"9_9", ".mp4"⟩, []⟩ UploadOutcome.success).fs ∧
    (processUploadTask [⟨"9_9", ".mp4"⟩] ⟨false, ⟨"9_9", ".mp4"⟩, []⟩
        (UploadOutcome.failure "boom")).fs = [⟨"9_9", ".mp4"⟩] :=
  ⟨(upload_cleanup_on_success [⟨"9_9", ".mp4"⟩, ⟨"9_9", ".jpg"⟩]
      ⟨false, ⟨"9_9", ".mp4"⟩, []⟩).1 ⟨"9_9", ".mp4"⟩ (by decide),
   (upload_cleanup_on_success [⟨"9_9", ".mp4"⟩]
      ⟨false, ⟨"9_9", ".mp4"⟩, []⟩).2 "boom"⟩

/-- C8: in every reachable scheduler state the number of task bodies
executing inside the stage's semaphore never exceeds the stage's limit:
5 for the download stage and 3 for the upload stage. -/
theorem stage_concurrency_bounded (s : StageState) :
    (StageReachable maxConcurrentDownloads s → s.active.length ≤ 5) ∧
    (StageReachable maxConcurrentUploads s → s.active.length ≤ 3) := by
  constructor
  · intro h
    have hinv := stageReachable_invariant h
    unfold maxConcurrentDownloads at hinv
    omega
  · intro h
    have hinv := stageReachable_invariant h
    unfold maxConcurrentUploads at hinv
    omega

/-- Witness for C8: a download-stage state reached by admitting one
task, and the initial upload-stage state. -/
theorem stage_concurrency_bounded_witness :
    ((⟨4, ["t1"]⟩ : StageState).active.length ≤ 5) ∧
    ((⟨3, []⟩ : StageState).active.length ≤ 3) :=
  ⟨(stage_concurrency_bounded ⟨4, ["t1"]⟩).1
      (StageReachable.step StageReachable.init
        (StageStep.acquire ⟨5, []⟩ "t1" (by decide))),
   (stage_concurrency_bounded ⟨3, []⟩).2 StageReachable.init⟩

theorem progressStates_map_progress (total : Nat) (calls : List Nat)
    (htot : total ≠ 0) :
    (progressStates total calls).map ProgressState.progress = 0 :: calls := by
  unfold progressStates
  suffices h : ∀ init : ProgressState,
      (calls.scanl (fun st c => progressCallback st c total) init).map
        ProgressState.progress = init.progress :: calls from h ⟨0, 0⟩
  induction calls with
  | nil => intro init; rfl
  | cons c cs ih =>
    intro init
    rw [List.scanl_cons]
    simp only [List.singleton_append, List.map_cons, ih]
    have : (progressCallback init c total).progress = c := by
      unfold progressCallback
      rw [if_neg htot]
    rw [this]

theorem percentage_mono {a b total : Nat} (htot : total ≠ 0) (hab : a ≤ b) :
    percentage a total ≤ percentage b total := by
  have h0 : (0 : ℚ) < total := by
    exact_mod_cast Nat.pos_of_ne_zero htot
  unfold percentage
  rw [div_le_div_iff_of_pos_right h0]
  have : a * 100 ≤ b * 100 := Nat.mul_le_mul_right 100 hab
  exact_mod_cast this

/-- C9: for any sequence of progress-callback invocations on one task
with a fixed nonzero total and non-decreasing `bytes_transferred` bounded
by the total, the recorded progress is exactly the call sequence (so it
never decreases and never exceeds the total), the reported percentage is
non-decreasing, and the percentage equals 100 exactly when
`bytes_transferred` equals `bytes_total`. -/
theorem progress_monotone (total : Nat) (calls : List Nat)
    (htot : total ≠ 0) (hmono : List.Chain' (· ≤ ·) calls)
    (hle : ∀ c ∈ calls, c ≤ total) :
    (progressStates total calls).map ProgressState.progress = 0 :: calls ∧
    List.Chain' (· ≤ ·)
      ((progressStates total calls).map ProgressState.progress) ∧
    (∀ st ∈ progressStates total calls, st.progress ≤ total) ∧
    List.Chain' (· ≤ ·)
      (((progressStates total calls).map ProgressState.progress).map
        (fun c => percentage c total)) ∧
    (∀ c : Nat, percentage c total = 100 ↔ c = total) := by
  have htrace := progressStates_map_progress total calls htot
  have hchain0 : List.Chain' (· ≤ ·) (0 :: calls) := by
    cases calls with
    | nil => simp
    | cons c cs => exact List.chain'_cons.mpr ⟨Nat.zero_le c, hmono⟩
  have h0 : (0 : ℚ) < total := by
    exact_mod_cast Nat.pos_of_ne_zero htot
  refine ⟨htrace, htrace ▸ hchain0, ?_, ?_, ?_⟩
  · intro st hst
    have hmem : st.progress ∈
        (progressStates total calls).map ProgressState.progress :=
      List.mem_map_of_mem _ hst
    rw [htrace] at hmem
    rcases List.mem_cons.mp hmem with h | h
    · rw [h]; exact Nat.zero_le _
    · exact hle _ h
  · rw [htrace]
    exact List.chain'_map_of_chain' _ (fun a b hab => percentage_mono htot hab)
      hchain0
  · intro c
    unfold percentage
    rw [div_eq_iff (ne_of_gt h0)]
    constructor
    · intro h
      have : (c : ℚ) = total := by linarith
      exact_mod_cast this
    · intro h
      rw [h]
      ring

/-- Witness for C9 on the call sequence 2, 5, 10 against a total of 10. -/
theorem progress_monotone_witness :
    (∀ st ∈ progressStates 10 [2, 5, 10], st.progress ≤ 10) ∧
    (percentage 10 10 = 100 ↔ (10 : Nat) = 10) :=
  ⟨(progress_monotone 10 [2, 5, 10] (by decide)
      (by simp [List.chain'_cons]) (by decide)).2.2.1,
   (progress_monotone 10 [2, 5, 10] (by decide)
      (by simp [List.chain'_cons]) (by decide)).2.2.2.2 10⟩

instance : IsTotal MsgEntity priorityGe :=
  ⟨fun a b => Nat.le_total (kindPriority b.kind) (kindPriority a.kind)⟩

instance : IsTrans MsgEntity priorityGe :=
  ⟨fun _ _ _ hab hbc => Nat.le_trans hbc hab⟩

/-- Strict version of `priorityGe`: within a group of pairwise-distinct
priorities the sorted order is strictly descending. -/
def priorityGt (a b : MsgEntity) : Prop :=
  kindPriority b.kind < kindPriority a.kind

instance : IsAntisymm MsgEntity priorityGt :=
  ⟨fun _ _ h1 h2 => absurd (Nat.lt_trans h1 h2) (Nat.lt_irrefl _)⟩

instance : IsTotal (Nat × Nat) keyLe :=
  ⟨fun a b => by
    obtain ⟨a1, a2⟩ := a
    obtain ⟨b1, b2⟩ := b
    unfold keyLe
    omega⟩

instance : IsTrans (Nat × Nat) keyLe :=
  ⟨fun a b c h1 h2 => by
    obtain ⟨a1, a2⟩ := a
    obtain ⟨b1, b2⟩ := b
    obtain ⟨c1, c2⟩ := c
    unfold keyLe at h1 h2 ⊢
    omega⟩

instance : IsAntisymm (Nat × Nat) keyLe :=
  ⟨fun a b h1 h2 => by
    obtain ⟨a1, a2⟩ := a
    obtain ⟨b1, b2⟩ := b
    unfold keyLe at h1 h2
    simp only [Prod.mk.injEq]
    omega⟩

theorem sortGroupDesc_eq_of_perm {g1 g2 : List MsgEntity} (hperm : g1.Perm g2)
    (hnd : g1.Pairwise
      (fun a b => kindPriority a.kind ≠ kindPriority b.kind)) :
    sortGroupDesc g1 = sortGroupDesc g2 := by
  have p1 : (sortGroupDesc g1).Perm g1 := List.perm_insertionSort _ _
  have p2 : (sortGroupDesc g2).Perm g2 := List.perm_insertionSort _ _
  have hsym : ∀ {x y : MsgEntity},
      kindPriority x.kind ≠ kindPriority y.kind →
      kindPriority y.kind ≠ kindPriority x.kind := fun h => h.symm
  have nd1 := (List.Perm.pairwise_iff hsym p1).mpr hnd
  have nd2' := (List.Perm.pairwise_iff hsym hperm).mp hnd
  have nd2 := (List.Perm.pairwise_iff hsym p2).mpr nd2'
  have s1 : (sortGroupDesc g1).Sorted priorityGe := List.sorted_insertionSort _ _
  have s2 : (sortGroupDesc g2).Sorted priorityGe := List.sorted_insertionSort _ _
  have st1 : (sortGroupDesc g1).Sorted priorityGt :=
    (List.Pairwise.and s1 nd1).imp
      (fun hab => Nat.lt_of_le_of_ne hab.1 (Ne.symm hab.2))
  have st2 : (sortGroupDesc g2).Sorted priorityGt :=
    (List.Pairwise.and s2 nd2).imp
      (fun hab => Nat.lt_of_le_of_ne hab.1 (Ne.symm hab.2))
  exact List.eq_of_perm_of_sorted (p1.trans (hperm.trans p2.symm)) st1 st2

theorem sortedKeys_eq_of_perm {es1 es2 : List MsgEntity}
    (hperm : es1.Perm es2) : sortedKeys es1 = sortedKeys es2 := by
  have hd : ((es1.map entityKey).dedup).Perm ((es2.map entityKey).dedup) :=
    (hperm.map entityKey).dedup
  have p1 : (sortedKeys es1).Perm ((es1.map entityKey).dedup) :=
    List.perm_insertionSort _ _
  have p2 : (sortedKeys es2).Perm ((es2.map entityKey).dedup) :=
    List.perm_insertionSort _ _
  exact List.eq_of_perm_of_sorted (p1.trans (hd.trans p2.symm))
    (List.sorted_insertionSort _ _) (List.sorted_insertionSort _ _)

theorem mem_of_mem_sortedKeys {es : List MsgEntity} {k : Nat × Nat}
    (hk : k ∈ sortedKeys es) : k ∈ es.map entityKey := by
  have hp : (sortedKeys es).Perm ((es.map entityKey).dedup) :=
    List.perm_insertionSort _ _
  exact List.mem_dedup.mp (hp.mem_iff.mp hk)

theorem formatMessageEntities_perm_eq (text : String)
    {es1 es2 : List MsgEntity} (hperm : es1.Perm es2)
    (hnd : ∀ k ∈ es1.map entityKey,
      (groupAt es1 k).Pairwise
        (fun a b => kindPriority a.kind ≠ kindPriority b.kind)) :
    formatMessageEntities text es1 = formatMessageEntities text es2 := by
  by_cases htext : text = ""
  · simp [formatMessageEntities, htext]
  · by_cases hes : es1 = []
    · subst hes
      have h2 : es2 = [] := hperm.symm.eq_nil
      subst h2
      rfl
    · have hes2 : es2 ≠ [] := fun h => hes (by
        subst h
        exact hperm.eq_nil)
      unfold formatMessageEntities
      rw [if_neg (by simp [htext, hes]), if_neg (by simp [htext, hes2])]
      rw [sortedKeys_eq_of_perm hperm]
      have hsteps : ∀ st : Nat × String, ∀ k ∈ sortedKeys es2,
          formatStep text es1 st k = formatStep text es2 st k := by
        intro st k hk
        have hk1 : k ∈ es1.map entityKey := by
          rw [← sortedKeys_eq_of_perm hperm] at hk
          exact mem_of_mem_sortedKeys hk
        unfold formatStep
        have hg : applyGroup (groupAt es1 k) (strSlice text k.1 k.2) =
            applyGroup (groupAt es2 k) (strSlice text k.1 k.2) := by
          unfold applyGroup sortGroupDesc
          rw [show (groupAt es1 k).insertionSort priorityGe =
              (groupAt es2 k).insertionSort priorityGe from
            sortGroupDesc_eq_of_perm (hperm.filter _) (hnd k hk1)]
        rw [hg]
      rw [List.foldl_ext (formatStep text es1) (formatStep text es2)
        ((0 : Nat), "") hsteps]

/-- C4 counterexample: two TEXT_LINK annotations with different URLs on
the same (start, end) span share the same priority; the stable sort keeps
input order, so swapping the input order of the annotations changes the
nested output — nesting is not deterministic for that annotation set,
contradicting the claim as stated. -/
theorem entity_format_order_dependent :
    formatMessageEntities "hi"
        [⟨0, 2, EntityKind.textLink, "u1"⟩, ⟨0, 2, EntityKind.textLink, "u2"⟩] =
      "[[hi](u1)](u2)" ∧
    formatMessageEntities "hi"
        [⟨0, 2, EntityKind.textLink, "u2"⟩, ⟨0, 2, EntityKind.textLink, "u1"⟩] =
      "[[hi](u2)](u1)" ∧
    formatMessageEntities "hi"
        [⟨0, 2, EntityKind.textLink, "u1"⟩, ⟨0, 2, EntityKind.textLink, "u2"⟩] ≠
      formatMessageEntities "hi"
        [⟨0, 2, EntityKind.textLink, "u2"⟩, ⟨0, 2, EntityKind.textLink, "u1"⟩] := by
  refine ⟨?_, ?_, ?_⟩ <;> decide

/-- C4 (amended): when the annotations at each shared (start, end) span
have pairwise distinct priorities (so at most one link, and no duplicate
kind, per span — equal-priority annotations keep input order instead),
the formatter's output is independent of the input order of the
annotations, and each group is applied in descending-priority-number
order, so the highest-priority wrapper (bold before italic before … )
ends up outermost. -/
theorem entity_format_deterministic (text : String)
    (es1 es2 : List MsgEntity) (hperm : es1.Perm es2)
    (hnd : ∀ k ∈ es1.map entityKey,
      (groupAt es1 k).Pairwise
        (fun a b => kindPriority a.kind ≠ kindPriority b.kind)) :
    formatMessageEntities text es1 = formatMessageEntities text es2 ∧
    ∀ k, (sortGroupDesc (groupAt es1 k)).Sorted priorityGe :=
  ⟨formatMessageEntities_perm_eq text hperm hnd,
   fun _ => List.sorted_insertionSort _ _⟩

/-- Witness for the amended C4: bold+italic on "hi" formats identically
for both input orders, and the result nests bold outermost. -/
theorem entity_format_deterministic_witness :
    formatMessageEntities "hi"
        [⟨0, 2, EntityKind.bold, ""⟩, ⟨0, 2, EntityKind.italic, ""⟩] =
      formatMessageEntities "hi"
        [⟨0, 2, EntityKind.italic, ""⟩, ⟨0, 2, EntityKind.bold, ""⟩] ∧
    formatMessageEntities "hi"
        [⟨0, 2, EntityKind.bold, ""⟩, ⟨0, 2, EntityKind.italic, ""⟩] =
      "**__hi__**" := by
  constructor
  · exact (entity_format_deterministic "hi"
      [⟨0, 2, EntityKind.bold, ""⟩, ⟨0, 2, EntityKind.italic, ""⟩]
      [⟨0, 2, EntityKind.italic, ""⟩, ⟨0, 2, EntityKind.bold, ""⟩]
      (List.Perm.swap _ _ _) (by decide)).1
  · decide

end HyperSave
